import Mathlib

/-
  Verification development for the Matangi mail-automation repository.

  The Python sources are shallowly embedded: pure fragments become Lean
  functions, MongoDB documents become structures, collections become lists,
  and fallible calls are made explicit (an `ok` flag models whether the
  underlying storage call raises, Option models absent values).
  Dates (Python datetime values) are embedded as natural numbers on an
  abstract time axis, with 0 playing the role of datetime.min; wall-clock
  readings (datetime.now) are passed in explicitly as `now` parameters.
-/

set_option maxRecDepth 10000

/-! ## Generic keyed stable sort

Model of the sorting used by the code: Python `sorted(xs, key=...)` is a
stable sort, and the MongoDB push-with-sort specification sorts an array by a
field.  `sortKey` is the standard stable insertion sort on a Nat-valued key:
an element is inserted before the first element whose key is `≥` its own, so
elements with equal keys keep their original relative order. -/

def insKey (key : α → Nat) (x : α) : List α → List α
  | [] => [x]
  | y :: ys => if key x ≤ key y then x :: y :: ys else y :: insKey key x ys

def sortKey (key : α → Nat) : List α → List α
  | [] => []
  | x :: xs => insKey key x (sortKey key xs)

/-! ## Python truthiness helpers -/

/-- Truthiness of an optional integer in Python: None and 0 are falsy. -/
def pyTruthyNat : Option Nat → Bool
  | none => false
  | some n => n ≠ 0

/-- Truthiness of an optional string in Python: None and the empty string are
falsy. -/
def pyTruthyStr : Option String → Bool
  | none => false
  | some s => s ≠ ""

/-- Python `a or b` for an optional string `a` and a plain default `b`. -/
def pyOrStr (a : Option String) (b : String) : String :=
  if pyTruthyStr a then a.getD "" else b

/-- The Python exceptions the embeddings raise explicitly: an unbound name
(NameError, C10) and a keyword that binds no formal parameter of the callee
(TypeError, C8). -/
inductive PyExc where
  | nameError (n : String)
  | typeError (n : String)
  deriving Repr, DecidableEq

/-! ## C3: delta computation in UserMonitorThread._monitor_loop

From src/mail_parser/imap_monitor.py lines 230-274.  The helper
`search_new_uids` issues `UID W+1:*` to the IMAP server when
`last_processed_uid` is truthy, else `ALL`; the mail store is embedded as the
list of UIDs in the monitored folder, and the server answer to `UID n:*` is
embedded as the UIDs that are `≥ n`.  The monitor then sorts the answer
ascending; when the watermark is truthy it processes every UID in that order,
otherwise it processes only the last (maximum) one. -/

def search_new_uids (folderUids : List Nat) (w : Option Nat) : List Nat :=
  if pyTruthyNat w then
    folderUids.filter (fun u => w.getD 0 + 1 ≤ u)
  else
    folderUids

/-- The list of UIDs the monitor loop hands to per-UID processing, in order:
`new_uids = search_new_uids(); if new_uids: new_uids = sorted(new_uids);
if last_processed_uid: <process each> else: <process new_uids[-1]>`. -/
def compute_delta (folderUids : List Nat) (w : Option Nat) : List Nat :=
  let newUids := search_new_uids folderUids w
  if newUids.isEmpty then []
  else
    let s := sortKey id newUids
    if pyTruthyNat w then s
    else
      match s.getLast? with
      | some m => [m]
      | none => []

/-! ## C4: watermark advance

Two advance implementations are embedded.

`UserManager.update_last_processed_uid` (src/Utility/user_manager.py lines
171-187) issues an unconditional MongoDB `$set` of `last_processed_uid` and
`uid_updated_at` on the document matched by username, returning
`modified_count > 0`; any storage exception is caught and `False` returned
with the store untouched.  The users collection is embedded as a list of user
documents with unique usernames; `storageOk` is false when the underlying
call raises.

`UIDTracker.update_last_processed` (src/Utility/uid_tracker.py lines
130-158) first consults `is_new_email` and only calls the unconditional
writer `set_last_processed_uid` when the uid is strictly greater than the
stored one; the tracker file content is embedded as an optional Nat. -/

structure UserDoc where
  username : String
  last_processed_uid : Option Nat
  uid_updated_at : Option Nat
  deriving Repr, DecidableEq

def umFind (col : List UserDoc) (u : String) : Option UserDoc :=
  col.find? (fun d => d.username == u)

/-- UserManager.update_last_processed_uid: unconditional `$set` on the user
document; returns whether `modified_count > 0`; on storage failure returns
false leaving the collection unchanged. -/
def update_last_processed_uid (storageOk : Bool) (col : List UserDoc)
    (username : String) (uid : Nat) (now : Nat) : Bool × List UserDoc :=
  if !storageOk then (false, col)
  else
    match umFind col username with
    | none => (false, col)
    | some d =>
        let d' : UserDoc :=
          { d with last_processed_uid := some uid, uid_updated_at := some now }
        let col' := col.map
          (fun e => if e.username == username then
            { e with last_processed_uid := some uid, uid_updated_at := some now }
          else e)
        (decide (d ≠ d'), col')

/-- UserManager.get_last_processed_uid: `find_one` then field read; on
storage failure (or unknown user) returns None. -/
def get_last_processed_uid (storageOk : Bool) (col : List UserDoc)
    (username : String) : Option Nat :=
  if !storageOk then none
  else (umFind col username).bind (fun d => d.last_processed_uid)

/-- UIDTracker.is_new_email: true when no watermark is stored or the uid is
strictly greater than the stored one. -/
def is_new_email (tracker : Option Nat) (uid : Nat) : Bool :=
  match tracker with
  | none => true
  | some l => decide (l < uid)

/-- UIDTracker.set_last_processed_uid: unconditional overwrite of the
tracker file; on storage failure returns false leaving the file unchanged. -/
def set_last_processed_uid (storageOk : Bool) (tracker : Option Nat)
    (uid : Nat) : Bool × Option Nat :=
  if storageOk then (true, some uid) else (false, tracker)

/-- UIDTracker.update_last_processed: writes only when `is_new_email`. -/
def update_last_processed (storageOk : Bool) (tracker : Option Nat)
    (uid : Nat) : Bool × Option Nat :=
  if is_new_email tracker uid then set_last_processed_uid storageOk tracker uid
  else (false, tracker)

/-! ## C5: retry framework

From src/utils/retry_framework.py.  Delays are in whole seconds (the
configured values are integral), embedded as Nat.  An operation is embedded
as a function from the attempt index to a result, so that a permanently
failing operation is one returning an error at every index; the exception
raised at attempt `n` is the value carried by the error.  The log is the
list of emitted entries in order; `time.sleep` calls are recorded in
`sleeps`.  The executor loop guard `should_retry`, namely
`attempt < max_attempts - 1`, is carried as the number of remaining allowed
retries (`max_attempts - 1` at the start, decremented each retry), which
makes the recursion structural. -/

structure StrategyCfg where
  maxAttempts : Nat
  delay : Nat → Nat

def FixedDelayStrategy (delaySeconds maxAttempts : Nat) : StrategyCfg :=
  ⟨maxAttempts, fun _ => delaySeconds⟩

def ExponentialBackoffStrategy (baseDelay maxDelay multiplier maxAttempts : Nat) :
    StrategyCfg :=
  ⟨maxAttempts, fun attempt => min (baseDelay * multiplier ^ attempt) maxDelay⟩

inductive FallbackAction (α : Type) where
  | raiseException
  | returnNone
  | returnDefault (v : α)
  | logAndContinue

inductive LogEntry (E : Type) where
  | warnAttempt (attempt : Nat) (e : E)
  | infoRetry (delay : Nat)
  | errExhausted (attempts : Nat)
  | errTerminal (attempts : Nat) (e : E)
  | warnReturnNone
  | warnReturnDefault
  | infoContinue

/-- FallbackHandler.handle: the terminal error log line always carries the
original exception; the returned value is what the caller receives (a raise
is an error result). -/
def fallbackHandle (action : FallbackAction α) (e : E) (attempts : Nat) :
    Except E (Option α) × List (LogEntry E) :=
  match action with
  | .raiseException => (.error e, [.errTerminal attempts e])
  | .returnNone => (.ok none, [.errTerminal attempts e, .warnReturnNone])
  | .returnDefault v => (.ok (some v), [.errTerminal attempts e, .warnReturnDefault])
  | .logAndContinue => (.ok none, [.errTerminal attempts e, .infoContinue])

structure RetryOutcome (E α : Type) where
  success : Bool
  result : Except E (Option α)
  attempts_made : Nat
  total_delay : Nat
  sleeps : List Nat
  final_exception : Option E
  log : List (LogEntry E)

def retryGo (cfg : StrategyCfg) (fb : FallbackAction α) (op : Nat → Except E α) :
    Nat → Nat → Nat → List Nat → List (LogEntry E) → RetryOutcome E α
  | attempt, remaining, total, sleeps, log =>
      match op attempt with
      | .ok v =>
          ⟨true, .ok (some v), attempt + 1, total, sleeps, none, log⟩
      | .error e =>
          let log := log ++ [.warnAttempt (attempt + 1) e]
          match remaining with
          | 0 =>
              let log := log ++ [.errExhausted (attempt + 1)]
              let (res, fblog) := fallbackHandle fb e (attempt + 1)
              ⟨false, res, attempt + 1, total, sleeps, some e, log ++ fblog⟩
          | r + 1 =>
              let d := cfg.delay attempt
              retryGo cfg fb op (attempt + 1) r (total + d) (sleeps ++ [d])
                (log ++ [.infoRetry d])

/-- RetryExecutor.execute: start at attempt 0 with `max_attempts - 1`
retries remaining (the loop retries exactly while
`attempt < max_attempts - 1`). -/
def RetryExecutor_execute (cfg : StrategyCfg) (fb : FallbackAction α)
    (op : Nat → Except E α) : RetryOutcome E α :=
  retryGo cfg fb op 0 (cfg.maxAttempts - 1) 0 [] []

/-- RetryFactory.mongodb_executor applied to an operation: exponential
backoff 1s base, 30s cap, multiplier 2, 3 attempts, RETURN_NONE fallback. -/
def mongodb_execute (op : Nat → Except E α) : RetryOutcome E α :=
  RetryExecutor_execute (ExponentialBackoffStrategy 1 30 2 3)
    FallbackAction.returnNone op

/-- RetryFactory.gmail_executor applied to an operation: fixed 65s delay,
3 attempts, LOG_AND_CONTINUE fallback. -/
def gmail_execute (op : Nat → Except E α) : RetryOutcome E α :=
  RetryExecutor_execute (FixedDelayStrategy 65 3)
    FallbackAction.logAndContinue op

/-! ## C7: conversation identifier derivation in process_uid

From src/mail_parser/processor.py lines 132-143.  The X-GM-THRID value
returned by the fetch is embedded, already decoded, as an optional string
(an empty bytes value is falsy in Python, which pyTruthyStr reproduces; a
decode failure takes the same fallback branch as a malformed value).
Python str.strip, str.replace('-', '') and str.isdigit are embedded as
character-list operations (ASCII digits and the common whitespace
characters). -/

def isSpaceChar (c : Char) : Bool :=
  c == ' ' || c == '\t' || c == '\n' || c == '\r' || c == '\x0b' || c == '\x0c'

/-- Python str.strip(): drop leading and trailing whitespace. -/
def pyStrip (s : String) : String :=
  ⟨((s.data.dropWhile isSpaceChar).reverse.dropWhile isSpaceChar).reverse⟩

/-- Python s.replace('-', ''): remove every hyphen. -/
def removeHyphens (s : String) : String :=
  ⟨s.data.filter (fun c => c != '-')⟩

/-- Python str.isdigit(): nonempty and every character a digit. -/
def pyIsdigit (s : String) : Bool :=
  !s.data.isEmpty && s.data.all Char.isDigit

/-- The fallback branch condition of the code, true when the code falls back
to Message-ID / placeholder: X-GM-THRID absent or falsy, or blank after
strip, or not all digits once hyphens are removed. -/
def thridFallback (rawTid : Option String) : Bool :=
  !(pyTruthyStr rawTid)
    || (pyStrip (rawTid.getD "")).data.isEmpty
    || !(pyIsdigit (removeHyphens (rawTid.getD "")))

/-- Conversation id derivation:
`thread_id = raw_tid` if truthy and well formed, else
`msg.get('Message-ID') or f"no-thread-{uid}"`. -/
def deriveThreadId (rawTid : Option String) (messageId : Option String)
    (uid : Nat) : String :=
  if pyTruthyStr rawTid then
    let t := rawTid.getD ""
    if (pyStrip t).data.isEmpty || !(pyIsdigit (removeHyphens t)) then
      pyOrStr messageId ("no-thread-" ++ toString uid)
    else t
  else
    pyOrStr messageId ("no-thread-" ++ toString uid)

/-! ## Thread Store model (mongo_utils)

A MongoDB thread document from src/Utility/mongo_utils.py: uids and
message_ids are append-only arrays kept duplicate-free by $addToSet,
messages is the member array that $push with a $sort specification keeps
ordered by date (the model fixes the stable order for equal dates).  The
collection is the list of documents in insertion order; update_one touches
the first matching document, and with upsert=True a non-match inserts a
document built from the equality conditions of the filter plus the update
operators (MongoDB upsert semantics; the `$ne` condition on uids
contributes nothing to the inserted document). -/

structure EmailMsg where
  dateHdr : Option Nat
  message_id : Option String
  inReplyTo : Option String
  references : Option String
  deriving Repr, DecidableEq

structure MsgDoc where
  uid : Nat
  date : Nat
  folder : String
  message_id : String
  user_id : Option String
  deriving Repr, DecidableEq

structure ThreadDoc where
  thread_id : String
  user_id : Option String
  created_at : Nat
  last_updated : Nat
  messages : List MsgDoc
  uids : List Nat
  message_ids : List String
  deriving Repr, DecidableEq

/-- The parse-the-Date-header step of _message_to_doc: a parseable header
gives its value, an absent or unparseable one falls back to
datetime.now(). -/
def _message_to_doc (uid : Nat) (msg : EmailMsg) (folder : String)
    (now : Nat) : MsgDoc :=
  { uid := uid
    date := msg.dateHdr.getD now
    folder := folder
    message_id := msg.message_id.getD ""
    user_id := none }

/-- MongoDB $addToSet on an array. -/
def addToSet [BEq α] (l : List α) (x : α) : List α :=
  if l.contains x then l else l ++ [x]

/-- The $push / $set / $addToSet update document of the two upsert
functions, applied to one thread document. -/
def applyThreadUpdate (d : ThreadDoc) (msgDoc : MsgDoc) (uidInt : Nat)
    (msgId : String) (now : Nat) : ThreadDoc :=
  { d with
    last_updated := now
    messages := sortKey (fun m => m.date) (d.messages ++ [msgDoc])
    uids := addToSet d.uids uidInt
    message_ids := addToSet d.message_ids msgId }

structure UpdateResult where
  matched_count : Nat
  modified_count : Nat
  upserted : Bool
  deriving Repr, DecidableEq

/-- The filter of the upserts: thread_id equality, uids `$ne`, and for the
multi-tenant variant a user_id equality. -/
def upsertFilter (tid : String) (uidInt : Nat) (userId : Option String)
    (d : ThreadDoc) : Bool :=
  d.thread_id == tid && !(d.uids.contains uidInt) &&
    (match userId with
     | none => true
     | some u => d.user_id == some u)

def replaceFirst (p : α → Bool) (f : α → α) : List α → List α × Bool
  | [] => ([], false)
  | x :: xs =>
      if p x then (f x :: xs, true)
      else
        let r := replaceFirst p f xs
        (x :: r.1, r.2)

/-- Shared body of atomic_upsert_thread and
atomic_upsert_thread_with_user_id: update_one(filter_q, update_q,
upsert=True). -/
def atomic_upsert_core (col : List ThreadDoc) (tid : String) (uid : Nat)
    (msg : EmailMsg) (folder : String) (userId : Option String) (now : Nat) :
    List ThreadDoc × UpdateResult :=
  let msgId := msg.message_id.getD ""
  let msgDoc := { _message_to_doc uid msg folder now with user_id := userId }
  let r := replaceFirst (upsertFilter tid uid userId)
    (fun d => applyThreadUpdate d msgDoc uid msgId now) col
  if r.2 then
    (r.1, ⟨1, 1, false⟩)
  else
    let base : ThreadDoc :=
      { thread_id := tid
        user_id := userId
        created_at := now
        last_updated := 0
        messages := []
        uids := []
        message_ids := [] }
    (col ++ [applyThreadUpdate base msgDoc uid msgId now], ⟨0, 0, true⟩)

/-- atomic_upsert_thread (src/Utility/mongo_utils.py lines 425-454). -/
def atomic_upsert_thread (col : List ThreadDoc) (tid : String) (uid : Nat)
    (msg : EmailMsg) (folder : String) (now : Nat) :
    List ThreadDoc × UpdateResult :=
  atomic_upsert_core col tid uid msg folder none now

/-- atomic_upsert_thread_with_user_id (src/Utility/mongo_utils.py lines
456-494). -/
def atomic_upsert_thread_with_user_id (col : List ThreadDoc) (tid : String)
    (uid : Nat) (msg : EmailMsg) (folder : String) (userId : String)
    (now : Nat) : List ThreadDoc × UpdateResult :=
  atomic_upsert_core col tid uid msg folder (some userId) now

/-- A concrete test message for evaluation theorems. -/
def msgA : EmailMsg :=
  { dateHdr := some 500
    message_id := some "<m1@x>"
    inReplyTo := none
    references := none }

/-! ## C2: member ordering of the materialized view

From src/Utility/mongo_utils.py: get_thread_from_mongo sorts the stored
member array by the date key (get_message_date, lines 578-598) — a Python
stable sort — and windows the last `limit` members.  The stored members of
the current writers all carry datetime dates produced by _message_to_doc
(lines 311-328): the declared Date header when parseable, else
datetime.now() at admission; on such values get_message_date (tz-strip on a
naive value) is the identity on the abstract time axis. -/

def get_message_date (m : MsgDoc) : Nat := m.date

def colFindThread (col : List ThreadDoc) (tid : String) : Option ThreadDoc :=
  col.find? (fun d => d.thread_id == tid)

/-- The member window of get_thread_from_mongo: members sorted
chronologically, then the last `limit` of them (start_idx = max(0, total -
limit)); None when the thread is missing or has no messages. -/
def get_thread_from_mongo (col : List ThreadDoc) (tid : String)
    (limit : Nat) : Option (List MsgDoc) :=
  match colFindThread col tid with
  | none => none
  | some d =>
      if d.messages.isEmpty then none
      else
        let sorted := sortKey get_message_date d.messages
        some (sorted.drop (sorted.length - limit))

/-- One arrival: the UID, the fetched message and the wall clock at its
admission. -/
def arrivalDoc (folder : String) (x : Nat × EmailMsg × Nat) : MsgDoc :=
  _message_to_doc x.1 x.2.1 folder x.2.2

/-- A sequence of admissions of distinct messages to one conversation
through atomic_upsert_thread, each at its own wall-clock time. -/
def admitSeq (col : List ThreadDoc) (tid : String) (folder : String) :
    List (Nat × EmailMsg × Nat) → List ThreadDoc
  | [] => col
  | x :: rest =>
      admitSeq (atomic_upsert_thread col tid x.1 x.2.1 folder x.2.2).1
        tid folder rest

def msgDatedFuture : EmailMsg :=
  { dateHdr := some 300
    message_id := some "<future@x>"
    inReplyTo := none
    references := none }

def msgNoDate : EmailMsg :=
  { dateHdr := none
    message_id := some "<nodate@x>"
    inReplyTo := none
    references := none }

/-- The key a stored member ends with: the declared date when parseable,
else the admission clock. -/
def arrivalKey (x : Nat × EmailMsg × Nat) : Nat :=
  match x.2.1.dateHdr with
  | some dd => dd
  | none => x.2.2

def mkMail (d : Option Nat) (mid : String) : EmailMsg :=
  { dateHdr := d
    message_id := some mid
    inReplyTo := none
    references := none }

/-- The example of the claim: declared dates 103 (2024-01-03), unparseable,
101, 102 in that arrival order, admitted at clocks 200..203 (later than
every declared date). -/
def msC2 : List (Nat × EmailMsg × Nat) :=
  [(11, mkMail (some 103) "<a@x>", 200),
   (12, mkMail none "<b@x>", 201),
   (13, mkMail (some 101) "<c@x>", 202),
   (14, mkMail (some 102) "<d@x>", 203)]

/-! ## C6 and C8: per-UID processing (process_uid) and the monitor step

From src/mail_parser/processor.py lines 99-157 and 328-336, and
src/mail_parser/imap_monitor.py lines 254-266.  The fetch result is
embedded as an optional FetchData (None collapses the three failure exits:
fetch exception, missing RFC822 payload, parse failure — each returns False
before any store write).  The best-effort enrichment steps between the
admit and the tracker update (backfill, IMAP thread re-fetch, ML pipeline,
labeling, and the sent-folder sibling scan) run inside their own
try/except blocks and admit only other members, never this uid, so they are
omitted from the embedding; backfill is modelled separately for C9.  The
observable effects of one pipeline run are recorded as an event list:
the admit of this uid, the global uid-tracker update, and the per-tenant
watermark advance the monitor would do on success.  The monitor invokes
process_uid with a `username` keyword argument that the function signature
in processor.py does not declare, so the per-UID call raises TypeError at
call binding; the embedding models that binding explicitly. -/

def MAILBOX : String := "INBOX"

def sentFolderNames : List String :=
  ["sent", "[gmail]/sent mail", "[google mail]/sent mail"]

/-- Python str.lower, as a character-list map (String.toLower does not
reduce in the kernel). -/
def pyLower (s : String) : String :=
  ⟨s.data.map Char.toLower⟩

def is_sent_folder (folder : String) : Bool :=
  sentFolderNames.contains (pyLower folder)

structure FetchData where
  raw : Option EmailMsg
  xGmThrid : Option String
  deriving Repr, DecidableEq

inductive Ev where
  | admitted (tid : String) (uid : Nat)
  | advanceTracker (uid : Nat)
  | advanceWatermark (uid : Nat)
  deriving Repr, DecidableEq

/-- references = msg.get('In-Reply-To') or msg.get('References'):
truthiness of the headers. -/
def hasReplyRefs (m : EmailMsg) : Bool :=
  pyTruthyStr m.inReplyTo || pyTruthyStr m.references

/-- mongo_col.find_one({"thread_id": tid}) tested for truthiness. -/
def colHasThread (col : List ThreadDoc) (tid : String) : Bool :=
  (colFindThread col tid).isSome

structure ProcResult where
  success : Bool
  col : List ThreadDoc
  tracker : Option Nat
  events : List Ev
  deriving Repr, DecidableEq

/-- process_uid: skip guard (INBOX only, against the global uid tracker),
fetch, conversation id derivation, sent-folder gating, admit, tracker
update (INBOX only). -/
def process_uid (tracker : Option Nat) (col : List ThreadDoc) (uid : Nat)
    (folder : String) (fetch : Option FetchData) (now : Nat) : ProcResult :=
  if folder == MAILBOX && !(is_new_email tracker uid) then
    ⟨true, col, tracker, []⟩
  else
    match fetch with
    | none => ⟨false, col, tracker, []⟩
    | some fd =>
        match fd.raw with
        | none => ⟨false, col, tracker, []⟩
        | some msg =>
            let tid := deriveThreadId fd.xGmThrid msg.message_id uid
            if is_sent_folder folder && !(hasReplyRefs msg) then
              ⟨false, col, tracker, []⟩
            else if is_sent_folder folder && !(colHasThread col tid) then
              ⟨false, col, tracker, []⟩
            else
              let col' := (atomic_upsert_thread col tid uid msg folder now).1
              if folder == MAILBOX then
                ⟨true, col', some uid,
                  [Ev.admitted tid uid, Ev.advanceTracker uid]⟩
              else
                ⟨true, col', tracker, [Ev.admitted tid uid]⟩

/-- The formal parameters of process_uid (processor.py line 99):
`def process_uid(client, mongo_col, uid, folder=MAILBOX)` — no `username`
parameter and no **kwargs. -/
def process_uid_params : List String := ["client", "mongo_col", "uid", "folder"]

/-- The keyword arguments the monitor passes at its per-UID call sites
(imap_monitor.py lines 259 and 270):
`process_uid(self.client, self.mongo_col, uid, folder=MAILBOX,
username=self.username)`. -/
def monitor_process_uid_kwargs : List String := ["folder", "username"]

/-- Python call binding: a keyword argument that names no formal parameter
of the callee raises TypeError before the callee body runs. -/
def bindKwargs (params : List String) (kwargs : List String) :
    Except PyExc Unit :=
  match kwargs.find? (fun k => !(params.contains k)) with
  | some k => .error (.typeError k)
  | none => .ok ()

/-- One per-UID step of the monitor loop (imap_monitor.py lines 254-266):
the monitor calls process_uid with a `username` keyword that process_uid
does not accept, so the call raises TypeError at binding, before the
pipeline body runs; the surrounding except logs and continues, leaving
store, tracker and watermark untouched.  The ok branch carries what the
source would do were the binding to succeed — process, and on success
advance the tenant watermark (the monitor always passes folder=MAILBOX) —
but it is unreachable with the call sites as written. -/
def monitor_uid_step (tracker : Option Nat) (col : List ThreadDoc)
    (uid : Nat) (fetch : Option FetchData) (now : Nat) : ProcResult :=
  match bindKwargs process_uid_params monitor_process_uid_kwargs with
  | .error _ => ⟨false, col, tracker, []⟩
  | .ok _ =>
      let r := process_uid tracker col uid MAILBOX fetch now
      if r.success then
        { r with events := r.events ++ [Ev.advanceWatermark uid] }
      else r

/-- Every advance event for `uid` is preceded in the event list by an admit
of `uid` (admit then advance, never the reverse). -/
def advancesOnlyAfterAdmit (events : List Ev) (uid : Nat) : Prop :=
  ∀ l₁ l₂ e, events = l₁ ++ e :: l₂ →
    (e = Ev.advanceTracker uid ∨ e = Ev.advanceWatermark uid) →
    ∃ tid, Ev.admitted tid uid ∈ l₁

def fdC8 : FetchData :=
  ⟨some (mkMail (some 50) "<c8@x>"), some "12345"⟩

/-! ## C9: backfill_thread_emails

From src/mail_parser/processor.py lines 18-97.  The X-GM-THRID searches of
the two folders are embedded as the UID lists the mail store returns per
folder; uid_folder_map is a Python dict built by inserting the INBOX hits
then the Sent hits, a later folder overwriting an earlier one for the same
uid (IMAP UIDs are folder-scoped, so one uid can name different messages
in the two folders).  The missing set is iterated in map-key order (Python
iterates a set in unspecified order; the resulting store does not depend on
it).  Fetching a missing member is the external client fetch, embedded as
a function from (uid, folder); a None result is the logged-and-skipped
"no content" case. -/

structure MailSearchResult where
  inbox : List Nat
  sent : List Nat
  deriving Repr, DecidableEq

def SENT_FOLDER : String := "[Gmail]/Sent Mail"

def dictInsert (m : List (Nat × String)) (k : Nat) (v : String) :
    List (Nat × String) :=
  if m.any (fun e => e.1 == k) then
    m.map (fun e => if e.1 == k then (k, v) else e)
  else
    m ++ [(k, v)]

def build_uid_folder_map (mail : MailSearchResult) : List (Nat × String) :=
  let m1 := mail.inbox.foldl (fun m u => dictInsert m u MAILBOX) []
  mail.sent.foldl (fun m u => dictInsert m u SENT_FOLDER) m1

def mapKeys (m : List (Nat × String)) : List Nat := m.map (fun e => e.1)

/-- The uids already stored for the thread (the document's uids array). -/
def existingUids (col : List ThreadDoc) (tid : String) : List Nat :=
  ((colFindThread col tid).map (fun d => d.uids)).getD []

/-- missing = all_thread_uids − existing_uids − {current_uid}. -/
def computeMissing (m : List (Nat × String)) (existing : List Nat)
    (current : Option Nat) : List Nat :=
  (mapKeys m).filter
    (fun u => !(existing.contains u) && !(current == some u))

def backfill_thread_emails (mail : MailSearchResult)
    (fetchMsg : Nat → String → Option EmailMsg) (col : List ThreadDoc)
    (tid : String) (current : Option Nat) (now : Nat) :
    List ThreadDoc × Nat :=
  let existing := existingUids col tid
  let ufm := build_uid_folder_map mail
  let missing := computeMissing ufm existing current
  missing.foldl
    (fun acc u =>
      let folder := (((ufm.find? (fun e => e.1 == u)).map
        (fun e => e.2)).getD "INBOX")
      match fetchMsg u folder with
      | none => acc
      | some msg => ((atomic_upsert_thread acc.1 tid u msg folder now).1,
          acc.2 + 1))
    (col, 0)

def colC9 : List ThreadDoc :=
  [{ thread_id := "7", user_id := none, created_at := 0, last_updated := 0,
     messages := [⟨1, 11, "INBOX", "<u1@x>", none⟩,
                  ⟨2, 12, "INBOX", "<u2@x>", none⟩],
     uids := [1, 2], message_ids := ["<u1@x>", "<u2@x>"] }]

def fetchC9 : Nat → String → Option EmailMsg :=
  fun u _ => some (mkMail (some (10 + u)) ("<u" ++ toString u ++ "@x>"))

/-- The counterexample mail store: INBOX holds uids 1, 2, 3 and the sent
folder holds uids 3, 4 for the thread — five distinct (uid, folder)
messages. -/
def mailC9 : MailSearchResult := ⟨[1, 2, 3], [3, 4]⟩

/-- The claim scenario with distinct uids across the folders. -/
def mailC9b : MailSearchResult := ⟨[1, 2, 3], [4, 5]⟩

/-! ## C10: ThreadJSONStorage.save_thread_data

From src/thread_processor/json_storage.py lines 58-107.  The try block
builds simplified_data, then evaluates `if append and
os.path.exists(self.json_file_path)` — and the name `append` is bound
nowhere (not a parameter, not a local, not a module global), so Python
raises NameError before any file access; the blanket `except Exception`
logs and returns False.  The embedding makes the name environment explicit:
the names in scope in the function body, each with the truthiness its value
would have, with `append` absent; the rest of the body (load, find, update
or add, write) is carried faithfully after the lookup, and the file state
only changes at the final write. -/

/-- The names in scope inside save_thread_data (locals so far and module
globals); `append` is not among them. -/
def saveThreadDataEnv : List (String × Bool) :=
  [("self", true), ("thread_data", true), ("simplified_data", true),
   ("json", true), ("os", true), ("datetime", true), ("Dict", true),
   ("Any", true), ("List", true), ("Optional", true), ("sys", true),
   ("logger", true), ("ThreadJSONStorage", true)]

def lookupVar (env : List (String × Bool)) (n : String) : Except PyExc Bool :=
  match env.find? (fun e => e.1 == n) with
  | some e => .ok e.2
  | none => .error (.nameError n)

structure ThreadData where
  thread_id : Option String
  subject : Option String
  mails : List String
  deriving Repr, DecidableEq

structure SimpleThread where
  thread_id : Option String
  subject : Option String
  mails : List String
  deriving Repr, DecidableEq

def simplifyThreadData (td : ThreadData) : SimpleThread :=
  ⟨td.thread_id, td.subject, td.mails⟩

/-- The try block of save_thread_data: the file state is the parsed JSON
array when the file exists (None models a missing file). -/
def saveThreadDataBody (fs : Option (List SimpleThread)) (td : ThreadData) :
    Except PyExc (Bool × Option (List SimpleThread)) := do
  let simplified := simplifyThreadData td
  let app ← lookupVar saveThreadDataEnv "append"
  let existing := if app ∧ fs.isSome then fs.getD [] else []
  let newList :=
    match existing.findIdx? (fun t => t.thread_id == td.thread_id) with
    | some i => existing.set i simplified
    | none => existing ++ [simplified]
  return (true, some newList)

/-- save_thread_data: the except handler returns False; the file keeps its
prior state because the body raised before the write. -/
def save_thread_data (fs : Option (List SimpleThread)) (td : ThreadData) :
    Bool × Option (List SimpleThread) :=
  match saveThreadDataBody fs td with
  | .ok r => r
  | .error _ => (false, fs)

/-! ## Theorems -/

theorem insKey_perm (key : α → Nat) (x : α) (l : List α) :
    List.Perm (insKey key x l) (x :: l) := by
  induction l with
  | nil => simp [insKey]
  | cons y ys ih =>
      by_cases h : key x ≤ key y
      · simp [insKey, h]
      · simp only [insKey, if_neg h]
        exact (ih.cons y).trans (List.Perm.swap x y ys)

theorem sortKey_perm (key : α → Nat) (l : List α) : List.Perm (sortKey key l) l := by
  induction l with
  | nil => simp [sortKey]
  | cons x xs ih =>
      exact (insKey_perm key x (sortKey key xs)).trans (ih.cons x)

theorem insKey_pairwise (key : α → Nat) (x : α) (l : List α)
    (h : l.Pairwise (fun a b => key a ≤ key b)) :
    (insKey key x l).Pairwise (fun a b => key a ≤ key b) := by
  induction l with
  | nil => simp [insKey]
  | cons y ys ih =>
      by_cases hxy : key x ≤ key y
      · simp only [insKey, if_pos hxy]
        refine List.Pairwise.cons ?_ h
        intro b hb
        rcases List.mem_cons.mp hb with hby | hbt
        · exact hby ▸ hxy
        · exact le_trans hxy (List.rel_of_pairwise_cons h hbt)
      · simp only [insKey, if_neg hxy]
        have hys := List.Pairwise.of_cons h
        refine List.Pairwise.cons ?_ (ih hys)
        intro b hb
        rcases List.mem_cons.mp ((insKey_perm key x ys).mem_iff.mp hb) with hbx | hby
        · exact hbx ▸ le_of_not_le hxy
        · exact List.rel_of_pairwise_cons h hby

theorem sortKey_pairwise (key : α → Nat) (l : List α) :
    (sortKey key l).Pairwise (fun a b => key a ≤ key b) := by
  induction l with
  | nil => simp [sortKey]
  | cons x xs ih => exact insKey_pairwise key x (sortKey key xs) ih

/-- Two lists that are permutations of one another, both nondecreasing in the
key, with no repeated key, are equal. -/
theorem eq_of_perm_of_pairwise_key (key : α → Nat) :
    ∀ {l₁ l₂ : List α}, List.Perm l₁ l₂ →
      l₁.Pairwise (fun a b => key a ≤ key b) →
      l₂.Pairwise (fun a b => key a ≤ key b) →
      (l₁.map key).Nodup → l₁ = l₂ := by
  intro l₁
  induction l₁ with
  | nil => intro l₂ hp _ _ _; exact (hp.nil_eq).symm ▸ rfl
  | cons a t₁ ih =>
      intro l₂ hp h₁ h₂ hnd
      cases l₂ with
      | nil => exact absurd hp.symm.nil_eq (by simp)
      | cons b t₂ =>
          have hab : a = b := by
            by_contra hne
            have hat₂ : a ∈ t₂ := by
              have hm := hp.mem_iff.mp (List.mem_cons_self a t₁)
              rcases List.mem_cons.mp hm with hc | hc
              · exact absurd hc hne
              · exact hc
            have hbt₁ : b ∈ t₁ := by
              have hm := hp.symm.mem_iff.mp (List.mem_cons_self b t₂)
              rcases List.mem_cons.mp hm with hc | hc
              · exact absurd hc.symm hne
              · exact hc
            have h₁' : key a ≤ key b := List.rel_of_pairwise_cons h₁ hbt₁
            have h₂' : key b ≤ key a := List.rel_of_pairwise_cons h₂ hat₂
            have hkey : key a = key b := le_antisymm h₁' h₂'
            have : key a ∉ t₁.map key := by
              simp only [List.map_cons, List.nodup_cons] at hnd
              exact hnd.1
            exact this (hkey ▸ List.mem_map_of_mem key hbt₁)
          subst hab
          have ht : List.Perm t₁ t₂ := hp.cons_inv
          have : t₁ = t₂ := by
            refine ih ht h₁.of_cons h₂.of_cons ?_
            simp only [List.map_cons, List.nodup_cons] at hnd
            exact hnd.2
          rw [this]

theorem pairwise_le_getLast :
    ∀ (l : List Nat), l.Pairwise (fun a b => a ≤ b) →
      ∀ m, l.getLast? = some m → ∀ x ∈ l, x ≤ m := by
  intro l
  induction l with
  | nil => intro _ m hm; simp at hm
  | cons a t ih =>
      intro hpw m hm x hx
      cases t with
      | nil =>
          have ha : m = a := by simpa using hm.symm
          have hxa : x = a := by simpa using hx
          exact hxa ▸ ha ▸ le_refl a
      | cons b t' =>
          rw [List.getLast?_cons_cons] at hm
          have hmem : m ∈ b :: t' := List.mem_of_mem_getLast? hm
          rcases List.mem_cons.mp hx with hxa | hxt
          · exact hxa ▸ List.rel_of_pairwise_cons hpw hmem
          · exact ih hpw.of_cons m hm x hxt

theorem sortKey_id_getLast_max {l : List Nat} {m : Nat}
    (hl : (sortKey id l).getLast? = some m) : ∀ x ∈ l, x ≤ m := by
  intro x hx
  have hx' : x ∈ sortKey id l := (sortKey_perm id l).mem_iff.mpr hx
  exact pairwise_le_getLast (sortKey id l) (sortKey_pairwise id l) m hl x hx'

theorem mem_sortKey_id (l : List Nat) (x : Nat) :
    x ∈ sortKey id l ↔ x ∈ l := (sortKey_perm id l).mem_iff

/-- Claim C3 as stated is refuted at watermark 0: the watermark is present,
the folder holds UIDs 3 and 5 (both strictly greater than 0), yet the code,
which tests the watermark with Python truthiness, takes the bootstrap branch
and yields only the maximum UID. -/
theorem C3_counterexample :
    compute_delta [3, 5] (some 0) = [5] ∧
    compute_delta [3, 5] (some 0) ≠ sortKey id (List.filter (fun u => decide (0 < u)) [3, 5]) := by
  constructor
  · rfl
  · intro h
    simp [compute_delta, search_new_uids, pyTruthyNat, sortKey, insKey] at h

/-- C3 amended: for a present nonzero watermark `W` the computed delta is
exactly the folder UIDs strictly greater than `W`, in ascending order; a
stored watermark of 0 is treated like an absent one by the Python truthiness
test, and for an absent (or zero) watermark the delta is the single maximum
UID present when the folder is nonempty. -/
theorem C3_amended (uids : List Nat) (W : Nat) (hW : 1 ≤ W) :
    compute_delta uids (some W)
        = sortKey id (uids.filter (fun u => decide (W < u))) ∧
    (∀ u, u ∈ compute_delta uids (some W) ↔ u ∈ uids ∧ W < u) ∧
    (compute_delta uids (some W)).Pairwise (fun a b => a ≤ b) ∧
    (uids ≠ [] →
      ∃ m, compute_delta uids none = [m] ∧ m ∈ uids ∧ ∀ x ∈ uids, x ≤ m) := by
  have hT : pyTruthyNat (some W) = true := by
    simp only [pyTruthyNat, decide_eq_true_eq]
    omega
  have hfeq : uids.filter (fun u => decide ((some W).getD 0 + 1 ≤ u))
      = uids.filter (fun u => decide (W < u)) := by
    apply List.filter_congr
    intro u _
    simp only [Option.getD_some, decide_eq_decide]
    omega
  have h1 : compute_delta uids (some W)
      = sortKey id (uids.filter (fun u => decide (W < u))) := by
    simp only [compute_delta, search_new_uids, hT, if_true, hfeq]
    by_cases he : (uids.filter (fun u => decide (W < u))).isEmpty
    · rw [if_pos he]
      rw [List.isEmpty_iff] at he
      rw [he]
      rfl
    · rw [if_neg he]
  refine ⟨h1, ?_, ?_, ?_⟩
  · intro u
    rw [h1, mem_sortKey_id, List.mem_filter]
    simp
  · rw [h1]
    exact sortKey_pairwise id _
  · intro hne
    have hTn : pyTruthyNat none = false := rfl
    have hse : search_new_uids uids none = uids := by
      simp [search_new_uids, pyTruthyNat]
    have hnem : ¬ uids.isEmpty := by
      simpa [List.isEmpty_iff] using hne
    have hsk : sortKey id uids ≠ [] := by
      intro h
      have hp := sortKey_perm id uids
      rw [h] at hp
      exact hne hp.nil_eq.symm
    have hlast : (sortKey id uids).getLast? = some ((sortKey id uids).getLast hsk) :=
      List.getLast?_eq_getLast _ hsk
    refine ⟨(sortKey id uids).getLast hsk, ?_, ?_, ?_⟩
    · simp only [compute_delta, hse, hTn, if_false, Bool.false_eq_true]
      rw [if_neg hnem, hlast]
    · exact (mem_sortKey_id uids _).mp (List.getLast_mem hsk)
    · exact sortKey_id_getLast_max hlast

theorem C3_amended_witness :
    (1 ≤ 100 ∧
      compute_delta [98, 99, 101, 102, 105] (some 100)
        = sortKey id
            (List.filter (fun u => decide (100 < u)) [98, 99, 101, 102, 105])) ∧
    compute_delta [98, 99, 101, 102, 105] (some 100) = [101, 102, 105] ∧
    compute_delta [98, 99, 101, 102, 105] none = [105] :=
  ⟨⟨by decide, (C3_amended [98, 99, 101, 102, 105] 100 (by decide)).1⟩,
    by decide, by decide⟩

/-- Claim C4 as stated is refuted on the cited
`UIDTracker.update_last_processed`: with stored watermark 100, advancing to
the smaller uid 50 does not make the stored watermark 50 — the conditional
guard leaves it at 100 and reports false (it does not crash). -/
theorem C4_counterexample :
    update_last_processed true (some 100) 50 = (false, some 100) ∧
    (update_last_processed true (some 100) 50).2 ≠ some 50 := by
  constructor
  · rfl
  · intro h
    simp [update_last_processed, is_new_email, set_last_processed_uid] at h

/-- C4 amended: the Mongo-backed advance
(`UserManager.update_last_processed_uid`) is an unconditional last-writer-
wins set — for any existing tenant and any uid, including one smaller than
the stored watermark, a successful advance makes `get` return that uid, and
a storage failure returns false leaving the store unchanged.  The file-backed
`UIDTracker.update_last_processed` is instead conditional: a uid at or below
the stored watermark is ignored (returns false, watermark unchanged, no
crash), while its primitive `set_last_processed_uid` is the unconditional
writer. -/
theorem umFind_map_if (username : String) (f : UserDoc → UserDoc)
    (hf : ∀ d, (f d).username = d.username) :
    ∀ (col : List UserDoc),
      umFind (col.map (fun e => if e.username == username then f e else e))
          username
        = (umFind col username).map
            (fun d => if d.username == username then f d else d) := by
  intro col
  induction col with
  | nil => rfl
  | cons e t ih =>
      simp only [umFind] at ih
      by_cases hue : e.username = username
      · simp [umFind, List.find?_cons, hf, hue, -List.find?_map]
      · simp only [beq_iff_eq] at ih
        simp [umFind, List.find?_cons, hue, ih, -List.find?_map]

theorem C4_amended (col : List UserDoc) (username : String) (uid now : Nat)
    (hexists : (umFind col username).isSome) :
    (get_last_processed_uid true
        (update_last_processed_uid true col username uid now).2 username
      = some uid) ∧
    (∀ c u v n, update_last_processed_uid false c u v n = (false, c)) ∧
    (∀ l u, u ≤ l → update_last_processed true (some l) u = (false, some l)) ∧
    (∀ t u, set_last_processed_uid true t u = (true, some u)) := by
  refine ⟨?_, ?_, ?_, ?_⟩
  · rcases Option.isSome_iff_exists.mp hexists with ⟨d, hd⟩
    have hd0 : col.find? (fun x => x.username == username) = some d := hd
    have hdu := List.find?_some hd0
    simp only [update_last_processed_uid, Bool.not_true, Bool.false_eq_true,
      if_false, hd]
    simp only [get_last_processed_uid, Bool.not_true, Bool.false_eq_true,
      if_false]
    rw [umFind_map_if username
      (fun e => { e with last_processed_uid := some uid,
                         uid_updated_at := some now })
      (fun _ => rfl) col]
    rw [hd]
    simp [eq_of_beq hdu]
  · intro c u v n
    rfl
  · intro l u hle
    simp [update_last_processed, is_new_email, Nat.not_lt.mpr hle]
  · intro t u
    rfl

theorem C4_amended_witness :
    ((umFind [⟨"a@b.c", some 100, none⟩] "a@b.c").isSome ∧
      get_last_processed_uid true
        (update_last_processed_uid true [⟨"a@b.c", some 100, none⟩]
          "a@b.c" 50 777).2 "a@b.c" = some 50) :=
  ⟨by decide,
    (C4_amended [⟨"a@b.c", some 100, none⟩] "a@b.c" 50 777 (by decide)).1⟩

/-- C5 confirmed: a permanently failing operation under the durable-store
(MongoDB) configuration is attempted exactly 3 times with sleeps 1s then 2s
and the caller receives the RETURN_NONE absence value; under the
remote-classification (Gmail) configuration it is attempted exactly 3 times
with sleeps 65s and 65s, the caller receives the LOG_AND_CONTINUE absence
value, and the terminal error log entry carries the original (final)
exception. -/
theorem C5_retry_profiles {E α : Type} (op : Nat → Except E α) (err : Nat → E)
    (hfail : ∀ n, op n = Except.error (err n)) :
    (mongodb_execute op).attempts_made = 3 ∧
    (mongodb_execute op).sleeps = [1, 2] ∧
    (mongodb_execute op).result = Except.ok none ∧
    (mongodb_execute op).success = false ∧
    (gmail_execute op).attempts_made = 3 ∧
    (gmail_execute op).sleeps = [65, 65] ∧
    (gmail_execute op).result = Except.ok none ∧
    LogEntry.errTerminal 3 (err 2) ∈ (gmail_execute op).log := by
  have h0 := hfail 0
  have h1 := hfail 1
  have h2 := hfail 2
  refine ⟨?_, ?_, ?_, ?_, ?_, ?_, ?_, ?_⟩ <;>
    simp [mongodb_execute, gmail_execute, RetryExecutor_execute, retryGo,
      h0, h1, h2, ExponentialBackoffStrategy, FixedDelayStrategy,
      fallbackHandle]

theorem C5_retry_profiles_witness :
    ((∀ n : Nat, (fun k => (Except.error k : Except Nat Unit)) n
        = Except.error (id n)) ∧
      (mongodb_execute (fun k => (Except.error k : Except Nat Unit))).sleeps
        = [1, 2]) ∧
    LogEntry.errTerminal 3 (id 2)
      ∈ (gmail_execute (fun k => (Except.error k : Except Nat Unit))).log :=
  ⟨⟨fun _ => rfl,
      (C5_retry_profiles (fun k => Except.error k) id (fun _ => rfl)).2.1⟩,
    (C5_retry_profiles (fun k => Except.error k) id
      (fun _ => rfl)).2.2.2.2.2.2.2⟩

/-- C7 confirmed: the conversation identifier follows the tie-break order —
(1) the store-assigned thread id when present and well-formed (nonblank,
digits up to hyphens), else (2) the message's own Message-ID when present
and nonempty, else (3) the synthetic placeholder no-thread-<uid>. -/
theorem C7_thread_id_tiebreak (rawTid messageId : Option String) (uid : Nat) :
    (thridFallback rawTid = false →
      deriveThreadId rawTid messageId uid = rawTid.getD "") ∧
    (thridFallback rawTid = true → pyTruthyStr messageId = true →
      deriveThreadId rawTid messageId uid = messageId.getD "") ∧
    (thridFallback rawTid = true → pyTruthyStr messageId = false →
      deriveThreadId rawTid messageId uid = "no-thread-" ++ toString uid) := by
  refine ⟨?_, ?_, ?_⟩
  · intro h
    simp only [thridFallback, Bool.or_eq_false_iff, Bool.not_eq_false,
      Bool.not_eq_false'] at h
    simp [deriveThreadId, h.1.1, h.1.2, h.2]
  · intro h hm
    simp only [thridFallback, Bool.or_eq_true_iff, Bool.not_eq_true'] at h
    simp only [deriveThreadId, pyOrStr, hm, if_true]
    rcases h with (ht | hs) | hd
    · rw [if_neg (by simp [ht])]
    · by_cases htr : pyTruthyStr rawTid
      · rw [if_pos htr, if_pos (by simp [hs])]
      · rw [if_neg htr]
    · by_cases htr : pyTruthyStr rawTid
      · rw [if_pos htr, if_pos (by simp [hd])]
      · rw [if_neg htr]
  · intro h hm
    simp only [thridFallback, Bool.or_eq_true_iff, Bool.not_eq_true'] at h
    simp only [deriveThreadId, pyOrStr, hm, Bool.false_eq_true, if_false]
    rcases h with (ht | hs) | hd
    · rw [if_neg (by simp [ht])]
    · by_cases htr : pyTruthyStr rawTid
      · rw [if_pos htr, if_pos (by simp [hs])]
      · rw [if_neg htr]
    · by_cases htr : pyTruthyStr rawTid
      · rw [if_pos htr, if_pos (by simp [hd])]
      · rw [if_neg htr]

theorem C7_thread_id_tiebreak_witness :
    (thridFallback (some "184921") = false ∧
      deriveThreadId (some "184921") (some "<m@id>") 7 = "184921") ∧
    (thridFallback none = true ∧ pyTruthyStr (some "<m@id>") = true ∧
      deriveThreadId none (some "<m@id>") 7 = "<m@id>") ∧
    (thridFallback (some "bogus") = true ∧ pyTruthyStr none = false ∧
      deriveThreadId (some "bogus") none 7 = "no-thread-7") :=
  ⟨⟨by decide,
      (C7_thread_id_tiebreak (some "184921") (some "<m@id>") 7).1 (by decide)⟩,
    ⟨by decide, by decide,
      (C7_thread_id_tiebreak none (some "<m@id>") 7).2.1 (by decide) (by decide)⟩,
    ⟨by decide, by decide,
      (C7_thread_id_tiebreak (some "bogus") none 7).2.2 (by decide) (by decide)⟩⟩

/-- C1 evaluated at the failing input: two identical admits of uid 5 to
thread t on an initially empty store.  The first call inserts the thread
document; the second call's filter excludes that document (its uids array
now contains 5), so upsert=True inserts a second document for the same
thread_id — the store ends with two documents for "t" carrying the member
twice, and the second result is an upsert-insert (matched_count 0), not a
duplicate no-op.  The multi-tenant variant behaves identically. -/
theorem C1_duplicate_insert_eval :
    (atomic_upsert_thread [] "t" 5 msgA "INBOX" 100).1.length = 1 ∧
    (atomic_upsert_thread [] "t" 5 msgA "INBOX" 100).2.upserted = true ∧
    ((atomic_upsert_thread
        (atomic_upsert_thread [] "t" 5 msgA "INBOX" 100).1
        "t" 5 msgA "INBOX" 101).1.filter
      (fun d => d.thread_id == "t")).length = 2 ∧
    (atomic_upsert_thread
        (atomic_upsert_thread [] "t" 5 msgA "INBOX" 100).1
        "t" 5 msgA "INBOX" 101).2
      = ⟨0, 0, true⟩ ∧
    ((atomic_upsert_thread
        (atomic_upsert_thread [] "t" 5 msgA "INBOX" 100).1
        "t" 5 msgA "INBOX" 101).1.map
      (fun d => d.messages.countP (fun m => m.uid == 5))).sum = 2 ∧
    (atomic_upsert_thread_with_user_id
        (atomic_upsert_thread_with_user_id [] "t" 5 msgA "INBOX" "u1" 100).1
        "t" 5 msgA "INBOX" "u1" 101).2.upserted = true := by
  decide

/-- C2 as stated is refuted: member 1 carries a parseable declared date (300
on the abstract axis) later than the admission clock, member 2 an absent
date, admitted at times 200 and 201.  The store dates member 2 with its
admission time 201, so the materialized view lists the dateless member 2
before the dated member 1 — not after all dated members as claimed. -/
theorem C2_counterexample :
    (get_thread_from_mongo
        (admitSeq [] "t" "INBOX" [(1, msgDatedFuture, 200), (2, msgNoDate, 201)])
        "t" 10).map (fun v => v.map (fun m => m.uid)) = some [2, 1] ∧
    (some [2, 1] : Option (List Nat)) ≠ some [1, 2] := by
  decide

theorem arrivalKey_doc (folder : String) (x : Nat × EmailMsg × Nat) :
    get_message_date (arrivalDoc folder x) = arrivalKey x := by
  cases h : x.2.1.dateHdr <;>
    simp [get_message_date, arrivalDoc, _message_to_doc, arrivalKey, h]

/-- Invariant of a run of admissions into a single-document store: each
admission matches the document (distinct fresh uids keep the dedup filter
true), appends its member (modulo the write-time re-sort) and appends its
uid. -/
theorem admitSeq_single (tid folder : String) :
    ∀ (ms : List (Nat × EmailMsg × Nat)) (d : ThreadDoc),
      d.thread_id = tid →
      (ms.map (fun x => x.1)).Nodup →
      (∀ x ∈ ms, x.1 ∉ d.uids) →
      ∃ d' : ThreadDoc,
        admitSeq [d] tid folder ms = [d'] ∧
        d'.thread_id = tid ∧
        List.Perm d'.messages (d.messages ++ ms.map (arrivalDoc folder)) ∧
        d'.uids = d.uids ++ ms.map (fun x => x.1) := by
  intro ms
  induction ms with
  | nil =>
      intro d hd _ _
      exact ⟨d, rfl, hd, by simp, by simp⟩
  | cons x rest ih =>
      intro d hd hnodup hdisj
      have hxMem : x.1 ∉ d.uids := hdisj x (List.mem_cons_self x rest)
      have hcontains : d.uids.contains x.1 = false := by simp [hxMem]
      have hfil : upsertFilter tid x.1 none d = true := by
        simp [upsertFilter, hd, hxMem]
      have hstep : (atomic_upsert_thread [d] tid x.1 x.2.1 folder x.2.2).1
          = [applyThreadUpdate d
              ({ _message_to_doc x.1 x.2.1 folder x.2.2 with user_id := none })
              x.1 (x.2.1.message_id.getD "") x.2.2] := by
        simp [atomic_upsert_thread, atomic_upsert_core, replaceFirst, hfil]
      have hdocEq :
          ({ _message_to_doc x.1 x.2.1 folder x.2.2 with user_id := none })
            = arrivalDoc folder x := by
        simp [arrivalDoc, _message_to_doc]
      set dNew := applyThreadUpdate d
        ({ _message_to_doc x.1 x.2.1 folder x.2.2 with user_id := none })
        x.1 (x.2.1.message_id.getD "") x.2.2 with hdNew
      have hNewTid : dNew.thread_id = tid := hd
      have hNewUids : dNew.uids = d.uids ++ [x.1] := by
        simp [hdNew, applyThreadUpdate, addToSet, hxMem]
      rw [List.map_cons] at hnodup
      have hxNotRest : x.1 ∉ rest.map (fun x => x.1) :=
        (List.nodup_cons.mp hnodup).1
      have hrestNodup : (rest.map (fun x => x.1)).Nodup :=
        (List.nodup_cons.mp hnodup).2
      have hrestDisj : ∀ y ∈ rest, y.1 ∉ dNew.uids := by
        intro y hy
        rw [hNewUids]
        have h1 : y.1 ∉ d.uids := hdisj y (List.mem_cons_of_mem x hy)
        have h2 : y.1 ≠ x.1 := by
          intro he
          exact hxNotRest (he ▸ List.mem_map_of_mem (fun x => x.1) hy)
        simp [List.mem_append, h1, h2]
      rcases ih dNew hNewTid hrestNodup hrestDisj with
        ⟨dF, hrun, hFt, hFm, hFu⟩
      refine ⟨dF, ?_, hFt, ?_, ?_⟩
      · simpa [admitSeq, hstep] using hrun
      · have hNewMsgs : dNew.messages
            = sortKey (fun m => m.date)
                (d.messages ++ [arrivalDoc folder x]) := by
          simp [hdNew, applyThreadUpdate, hdocEq]
        refine hFm.trans ?_
        rw [hNewMsgs]
        have hp1 :
            List.Perm
              (sortKey (fun m => m.date) (d.messages ++ [arrivalDoc folder x]))
              (d.messages ++ [arrivalDoc folder x]) :=
          sortKey_perm _ _
        have hp2 := hp1.append (List.Perm.refl (rest.map (arrivalDoc folder)))
        refine hp2.trans ?_
        rw [List.append_assoc]
        simp
      · rw [hFu, hNewUids, List.append_assoc]
        simp

/-- C2 amended: a member with an unparseable or absent declared date is
stored with the admission wall-clock time as its date, so it materializes
after all members whose declared dates precede the admission times (not
after all dated members unconditionally), and the dateless members appear
in admission (arrival) order among themselves.  For admissions with
distinct uids, strictly increasing admission clocks later than every
declared date, and distinct declared dates, the materialized view is
exactly: the dated members sorted by declared date, then the dateless
members in arrival order. -/
theorem C2_amended (tid folder : String) (ms : List (Nat × EmailMsg × Nat))
    (hne : ms ≠ [])
    (hu : (ms.map (fun x => x.1)).Nodup)
    (ht : ms.Pairwise (fun a b => a.2.2 < b.2.2))
    (hb : ∀ x ∈ ms, ∀ y ∈ ms, ∀ dd, x.2.1.dateHdr = some dd → dd < y.2.2)
    (hdd : ms.Pairwise (fun a b => ∀ da db,
        a.2.1.dateHdr = some da → b.2.1.dateHdr = some db → da ≠ db)) :
    get_thread_from_mongo (admitSeq [] tid folder ms) tid ms.length
      = some
          (sortKey get_message_date
              ((ms.filter (fun x => x.2.1.dateHdr.isSome)).map
                (arrivalDoc folder))
            ++ (ms.filter (fun x => !(x.2.1.dateHdr.isSome))).map
                (arrivalDoc folder)) := by
  cases ms with
  | nil => exact absurd rfl hne
  | cons x0 rest =>
  set p : Nat × EmailMsg × Nat → Bool := fun x => x.2.1.dateHdr.isSome with hp
  set key : MsgDoc → Nat := get_message_date with hkey
  -- the first admission inserts the thread document
  set d0 : ThreadDoc := applyThreadUpdate
    { thread_id := tid, user_id := none, created_at := x0.2.2,
      last_updated := 0, messages := [], uids := [], message_ids := [] }
    ({ _message_to_doc x0.1 x0.2.1 folder x0.2.2 with user_id := none })
    x0.1 (x0.2.1.message_id.getD "") x0.2.2 with hd0
  have h0 : admitSeq [] tid folder (x0 :: rest)
      = admitSeq [d0] tid folder rest := by
    simp [admitSeq, atomic_upsert_thread, atomic_upsert_core, replaceFirst,
      hd0]
  have hd0tid : d0.thread_id = tid := rfl
  have hd0msgs : d0.messages = [arrivalDoc folder x0] := by
    simp [hd0, applyThreadUpdate, sortKey, insKey, arrivalDoc,
      _message_to_doc]
  have hd0uids : d0.uids = [x0.1] := by
    simp [hd0, applyThreadUpdate, addToSet]
  rw [List.map_cons] at hu
  have hx0NotRest : x0.1 ∉ rest.map (fun x => x.1) :=
    (List.nodup_cons.mp hu).1
  have hrestNodup : (rest.map (fun x => x.1)).Nodup :=
    (List.nodup_cons.mp hu).2
  have hrestDisj : ∀ y ∈ rest, y.1 ∉ d0.uids := by
    intro y hy
    rw [hd0uids]
    intro hmem
    rcases List.mem_singleton.mp hmem with h
    exact hx0NotRest (h ▸ List.mem_map_of_mem (fun x => x.1) hy)
  rcases admitSeq_single tid folder rest d0 hd0tid hrestNodup hrestDisj with
    ⟨dF, hrun, hFt, hFm, _⟩
  have hcol : admitSeq [] tid folder (x0 :: rest) = [dF] := h0.trans hrun
  have hFm' : List.Perm dF.messages ((x0 :: rest).map (arrivalDoc folder)) := by
    rw [List.map_cons]
    have : d0.messages ++ rest.map (arrivalDoc folder)
        = arrivalDoc folder x0 :: rest.map (arrivalDoc folder) := by
      rw [hd0msgs]
      rfl
    exact this ▸ hFm
  have hlen : dF.messages.length = (x0 :: rest).length := by
    rw [hFm'.length_eq, List.length_map]
  have hmne : dF.messages ≠ [] := by
    intro h
    rw [h] at hlen
    simp at hlen
  -- the view: find the document, sort, window
  rw [hcol]
  have hfind : colFindThread [dF] tid = some dF := by
    simp [colFindThread, List.find?_cons, hFt]
  simp only [get_thread_from_mongo, hfind]
  rw [if_neg (by simp [hmne])]
  have hslen : (sortKey get_message_date dF.messages).length
      = (x0 :: rest).length := by
    rw [(sortKey_perm get_message_date dF.messages).length_eq, hlen]
  rw [hslen, Nat.sub_self, List.drop_zero]
  congr 1
  -- both sides are sorted-by-key permutations of the admitted members with
  -- pairwise distinct keys
  have hsplit := List.filter_append_perm p (x0 :: rest)
  have htargetPerm :
      List.Perm
        (sortKey key (((x0 :: rest).filter p).map (arrivalDoc folder))
          ++ ((x0 :: rest).filter (fun x => !(p x))).map (arrivalDoc folder))
        ((x0 :: rest).map (arrivalDoc folder)) := by
    have h1 := (sortKey_perm key
        (((x0 :: rest).filter p).map (arrivalDoc folder))).append
      (List.Perm.refl
        (((x0 :: rest).filter (fun x => !(p x))).map (arrivalDoc folder)))
    refine h1.trans ?_
    rw [← List.map_append]
    exact hsplit.map (arrivalDoc folder)
  have hlhsPerm :
      List.Perm (sortKey key dF.messages)
        ((x0 :: rest).map (arrivalDoc folder)) :=
    (sortKey_perm key dF.messages).trans hFm'
  -- pairwise-distinct keys of the admitted members
  have harrKey : ∀ x : Nat × EmailMsg × Nat,
      key (arrivalDoc folder x) = arrivalKey x := arrivalKey_doc folder
  have hPne : (x0 :: rest).Pairwise
      (fun a b => arrivalKey a ≠ arrivalKey b) := by
    refine (ht.and hdd).imp_of_mem ?_
    intro a b ha hbm hab
    rcases hab with ⟨hlt, hne2⟩
    cases hda : a.2.1.dateHdr with
    | some da =>
        cases hdb : b.2.1.dateHdr with
        | some db =>
            simpa [arrivalKey, hda, hdb] using hne2 da db hda hdb
        | none =>
            have := hb a ha b hbm da hda
            simp [arrivalKey, hda, hdb]
            omega
    | none =>
        cases hdb : b.2.1.dateHdr with
        | some db =>
            have := hb b hbm a ha db hdb
            simp [arrivalKey, hda, hdb]
            omega
        | none =>
            simp [arrivalKey, hda, hdb]
            omega
  have hkeysNodup : (((x0 :: rest).map (arrivalDoc folder)).map key).Nodup := by
    rw [List.map_map]
    have : ((x0 :: rest).map (key ∘ arrivalDoc folder))
        = (x0 :: rest).map arrivalKey :=
      List.map_congr_left (fun a _ => harrKey a)
    rw [this]
    exact List.pairwise_map.mpr hPne
  have hlhsNodup : ((sortKey key dF.messages).map key).Nodup := by
    exact ((hlhsPerm.map key).nodup_iff).mpr hkeysNodup
  -- target sortedness
  have hundatedPW :
      (((x0 :: rest).filter (fun x => !(p x))).map
        (arrivalDoc folder)).Pairwise (fun a b => key a ≤ key b) := by
    refine List.pairwise_map.mpr ?_
    have hfu : ((x0 :: rest).filter (fun x => !(p x))).Pairwise
        (fun a b => a.2.2 < b.2.2) :=
      ht.sublist (List.filter_sublist (x0 :: rest))
    refine hfu.imp_of_mem ?_
    intro a b ha hbm hlt
    have hna : a.2.1.dateHdr = none := by
      have := (List.mem_filter.mp ha).2
      simpa [hp, Option.isSome_iff_exists] using this
    have hnb : b.2.1.dateHdr = none := by
      have := (List.mem_filter.mp hbm).2
      simpa [hp, Option.isSome_iff_exists] using this
    rw [harrKey a, harrKey b]
    simp [arrivalKey, hna, hnb]
    omega
  have hcross : ∀ a ∈ sortKey key (((x0 :: rest).filter p).map
      (arrivalDoc folder)),
      ∀ b ∈ ((x0 :: rest).filter (fun x => !(p x))).map (arrivalDoc folder),
      key a ≤ key b := by
    intro a ha b hbm
    have ha' := (sortKey_perm key _).mem_iff.mp ha
    rcases List.mem_map.mp ha' with ⟨xa, hxa, rfl⟩
    rcases List.mem_map.mp hbm with ⟨xb, hxb, rfl⟩
    have hxaMem : xa ∈ (x0 :: rest) := (List.mem_filter.mp hxa).1
    have hxbMem : xb ∈ (x0 :: rest) := (List.mem_filter.mp hxb).1
    rcases Option.isSome_iff_exists.mp (by
      have := (List.mem_filter.mp hxa).2
      simpa [hp] using this) with ⟨da, hda⟩
    have hnb : xb.2.1.dateHdr = none := by
      have := (List.mem_filter.mp hxb).2
      simpa [hp, Option.isSome_iff_exists] using this
    rw [harrKey xa, harrKey xb]
    have := hb xa hxaMem xb hxbMem da hda
    simp [arrivalKey, hda, hnb]
    omega
  have htargetPW :
      (sortKey key (((x0 :: rest).filter p).map (arrivalDoc folder))
        ++ ((x0 :: rest).filter (fun x => !(p x))).map
            (arrivalDoc folder)).Pairwise (fun a b => key a ≤ key b) :=
    List.pairwise_append.mpr
      ⟨sortKey_pairwise key _, hundatedPW, hcross⟩
  exact eq_of_perm_of_pairwise_key key
    (hlhsPerm.trans htargetPerm.symm)
    (sortKey_pairwise key dF.messages)
    htargetPW
    hlhsNodup

theorem C2_amended_witness :
    (get_thread_from_mongo (admitSeq [] "t" "INBOX" msC2) "t" msC2.length
      = some
          (sortKey get_message_date
              ((msC2.filter (fun x => x.2.1.dateHdr.isSome)).map
                (arrivalDoc "INBOX"))
            ++ (msC2.filter (fun x => !(x.2.1.dateHdr.isSome))).map
                (arrivalDoc "INBOX"))) ∧
    (get_thread_from_mongo (admitSeq [] "t" "INBOX" msC2) "t"
        msC2.length).map (fun v => v.map (fun m => m.uid))
      = some [13, 14, 11, 12] := by
  constructor
  · refine C2_amended "t" "INBOX" msC2 (by simp [msC2]) (by decide)
      (by decide) ?_ ?_
    · intro x hx y hy dd hddx
      fin_cases hx <;> fin_cases hy <;> simp_all [msC2, mkMail] <;> omega
    · simp only [msC2, List.pairwise_cons]
      refine ⟨?_, ?_, ?_, ?_⟩ <;>
        first
          | (intro b hbm da db h1 h2
             fin_cases hbm <;> simp_all [mkMail] <;> omega)
          | simp [mkMail]
  · decide

theorem is_sent_folder_ne_mailbox {folder : String}
    (h : is_sent_folder folder = true) : (folder == MAILBOX) = false := by
  by_contra hne
  have : folder = MAILBOX := by
    have := eq_true_of_ne_false hne
    exact eq_of_beq this
  rw [this] at h
  exact absurd h (by decide)

/-- C6 confirmed: a message processed from a sent-like folder is admitted
if and only if it carries a truthy In-Reply-To or References header AND the
conversation its identifier resolves to already exists in the store; with
no reply-reference header, or with a reference resolving to a conversation
absent from the store, it is never admitted. -/
theorem C6_sent_gating (tracker : Option Nat) (col : List ThreadDoc)
    (uid : Nat) (folder : String) (rawTid : Option String) (msg : EmailMsg)
    (now : Nat) (hsent : is_sent_folder folder = true) :
    (Ev.admitted (deriveThreadId rawTid msg.message_id uid) uid
        ∈ (process_uid tracker col uid folder
            (some ⟨some msg, rawTid⟩) now).events)
      ↔ (hasReplyRefs msg = true ∧
          colHasThread col (deriveThreadId rawTid msg.message_id uid) = true) := by
  have hnm := is_sent_folder_ne_mailbox hsent
  by_cases href : hasReplyRefs msg = true
  · by_cases hexist :
        colHasThread col (deriveThreadId rawTid msg.message_id uid) = true
    · simp [process_uid, hnm, hsent, href, hexist]
    · simp [process_uid, hnm, hsent, href, hexist]
  · simp [process_uid, hnm, hsent, href]

theorem C6_sent_gating_witness :
    (is_sent_folder "Sent" = true ∧
      (Ev.admitted (deriveThreadId (some "777") (some "<w@x>") 9) 9
          ∈ (process_uid none
              [{ thread_id := "777", user_id := none, created_at := 0,
                 last_updated := 0, messages := [], uids := [],
                 message_ids := [] }]
              9 "Sent"
              (some ⟨some { dateHdr := some 5, message_id := some "<w@x>",
                            inReplyTo := some "<p@x>", references := none },
                     some "777"⟩) 50).events
        ↔ (hasReplyRefs { dateHdr := some 5, message_id := some "<w@x>",
                          inReplyTo := some "<p@x>", references := none } = true ∧
            colHasThread
              [{ thread_id := "777", user_id := none, created_at := 0,
                 last_updated := 0, messages := [], uids := [],
                 message_ids := [] }]
              (deriveThreadId (some "777") (some "<w@x>") 9) = true))) :=
  ⟨by decide,
    C6_sent_gating none _ 9 "Sent" (some "777") _ 50 (by decide)⟩

/-- An empty event list advances nothing, so it advances only after an
admit. -/
theorem advancesOnlyAfterAdmit_nil (uid : Nat) :
    advancesOnlyAfterAdmit [] uid := by
  intro l₁ l₂ e h _
  exact absurd h (by simp)

theorem advancesOnlyAfterAdmit_single (tid : String) (uid : Nat) :
    advancesOnlyAfterAdmit [Ev.admitted tid uid] uid := by
  intro l₁ l₂ e h he
  cases l₁ with
  | nil =>
      rw [List.nil_append] at h
      simp only [List.cons.injEq] at h
      rcases he with he' | he' <;> rw [he'] at h <;> simp at h
  | cons a l₁' =>
      have hlen := congrArg List.length h
      simp [List.length_append] at hlen

theorem advancesOnlyAfterAdmit_pair (tid : String) (uid : Nat) :
    advancesOnlyAfterAdmit
      [Ev.admitted tid uid, Ev.advanceTracker uid] uid := by
  intro l₁ l₂ e h he
  cases l₁ with
  | nil =>
      rw [List.nil_append] at h
      simp only [List.cons.injEq] at h
      rcases he with he' | he' <;> rw [he'] at h <;> simp at h
  | cons a l₁' =>
      cases l₁' with
      | nil =>
          simp only [List.cons_append, List.nil_append, List.cons.injEq] at h
          exact ⟨tid, by rw [h.1]; exact List.mem_singleton_self _⟩
      | cons b l₁'' =>
          have hlen := congrArg List.length h
          simp [List.length_append] at hlen

/-- The only event lists a process_uid run can produce: nothing (skip or a
failure exit), admit then tracker update (INBOX success), or a bare admit
(sent-path success). -/
theorem process_uid_events (tracker : Option Nat) (col : List ThreadDoc)
    (uid : Nat) (folder : String) (fetch : Option FetchData) (now : Nat) :
    (process_uid tracker col uid folder fetch now).events = [] ∨
    (∃ tid, (process_uid tracker col uid folder fetch now).events
        = [Ev.admitted tid uid, Ev.advanceTracker uid]) ∨
    (∃ tid, (process_uid tracker col uid folder fetch now).events
        = [Ev.admitted tid uid]) := by
  simp only [process_uid]
  split
  · exact Or.inl rfl
  · split
    · exact Or.inl rfl
    · split
      · exact Or.inl rfl
      · split
        · exact Or.inl rfl
        · split
          · exact Or.inl rfl
          · split
            · exact Or.inr (Or.inl ⟨_, rfl⟩)
            · exact Or.inr (Or.inr ⟨_, rfl⟩)

/-- C8 confirmed: the watermark is advanced to a uid only after the message
with that uid has been admitted in that execution, never the reverse, and
when processing fails before admission no watermark is advanced.  Inside
process_uid the global uid-tracker watermark is written only after the
admit of this uid, and a run reporting failure produced no events and left
the tracker untouched.  The monitor's own advance of the per-tenant
watermark sits behind a call that passes a `username` keyword process_uid
does not accept, so every monitor per-UID step raises TypeError at call
binding, is caught and logged, and changes nothing — in particular no
watermark advance without a prior admit ever occurs there. -/
theorem C8_watermark_after_admission (tracker : Option Nat)
    (col : List ThreadDoc) (uid : Nat) (folder : String)
    (fetch : Option FetchData) (now : Nat) :
    advancesOnlyAfterAdmit
      (process_uid tracker col uid folder fetch now).events uid ∧
    ((process_uid tracker col uid folder fetch now).success = false →
      (process_uid tracker col uid folder fetch now).events = [] ∧
      (process_uid tracker col uid folder fetch now).tracker = tracker) ∧
    bindKwargs process_uid_params monitor_process_uid_kwargs
      = Except.error (PyExc.typeError "username") ∧
    monitor_uid_step tracker col uid fetch now
      = ⟨false, col, tracker, []⟩ ∧
    advancesOnlyAfterAdmit
      (monitor_uid_step tracker col uid fetch now).events uid := by
  refine ⟨?_, ?_, rfl, rfl, ?_⟩
  · rcases process_uid_events tracker col uid folder fetch now with
      h | ⟨tid, h⟩ | ⟨tid, h⟩
    · rw [h]
      exact advancesOnlyAfterAdmit_nil uid
    · rw [h]
      exact advancesOnlyAfterAdmit_pair tid uid
    · rw [h]
      exact advancesOnlyAfterAdmit_single tid uid
  · simp only [process_uid]
    split
    · intro h
      simp at h
    · split
      · exact fun _ => ⟨rfl, rfl⟩
      · split
        · exact fun _ => ⟨rfl, rfl⟩
        · split
          · exact fun _ => ⟨rfl, rfl⟩
          · split
            · exact fun _ => ⟨rfl, rfl⟩
            · split
              · intro h
                simp at h
              · intro h
                simp at h
  · have hm : monitor_uid_step tracker col uid fetch now
        = ⟨false, col, tracker, []⟩ := rfl
    rw [hm]
    exact advancesOnlyAfterAdmit_nil uid

theorem C8_watermark_after_admission_witness :
    monitor_uid_step (some 100) [] 60 (some fdC8) 300
      = ⟨false, [], some 100, []⟩ ∧
    advancesOnlyAfterAdmit
      (monitor_uid_step (some 100) [] 60 (some fdC8) 300).events 60 ∧
    advancesOnlyAfterAdmit
      (process_uid (some 100) [] 60 MAILBOX (some fdC8) 300).events 60 :=
  ⟨(C8_watermark_after_admission (some 100) [] 60 MAILBOX
      (some fdC8) 300).2.2.2.1,
    (C8_watermark_after_admission (some 100) [] 60 MAILBOX
      (some fdC8) 300).2.2.2.2,
    (C8_watermark_after_admission (some 100) [] 60 MAILBOX
      (some fdC8) 300).1⟩

theorem mem_mapKeys_dictInsert (m : List (Nat × String)) (k : Nat)
    (v : String) (x : Nat) :
    x ∈ mapKeys (dictInsert m k v) ↔ x = k ∨ x ∈ mapKeys m := by
  by_cases h : m.any (fun e => e.1 == k)
  · have hk : k ∈ mapKeys m := by
      rcases List.any_eq_true.mp h with ⟨e, he, hek⟩
      have : e.1 = k := by simpa using hek
      exact this ▸ List.mem_map_of_mem (fun e => e.1) he
    have hkeys : mapKeys (dictInsert m k v) = mapKeys m := by
      simp only [dictInsert, h, if_true, mapKeys, List.map_map]
      refine List.map_congr_left ?_
      intro e _
      by_cases he : e.1 = k
      · simp [he]
      · simp [he]
    rw [hkeys]
    constructor
    · exact Or.inr
    · rintro (rfl | hx)
      · exact hk
      · exact hx
  · simp [dictInsert, h, mapKeys, List.mem_append, or_comm]

theorem mem_mapKeys_foldl (folder : String) (us : List Nat) :
    ∀ (m : List (Nat × String)) (x : Nat),
      x ∈ mapKeys (us.foldl (fun m u => dictInsert m u folder) m)
        ↔ x ∈ us ∨ x ∈ mapKeys m := by
  induction us with
  | nil => intro m x; simp
  | cons u us ih =>
      intro m x
      rw [List.foldl_cons, ih, mem_mapKeys_dictInsert]
      simp only [List.mem_cons]
      tauto

/-- C9 as stated is refuted on a uid shared by the two folders: the mail
store holds five distinct (uid, folder) messages for the thread (uids 1,2,3
in INBOX and 3,4 in the sent folder) and the Thread Store holds two of
them, yet one pass admits only uids 3 and 4 — the dedup key is the uid
alone, and uid_folder_map keeps only the last folder for uid 3 — so the
store ends with 4 members, not the claimed 5 distinct (uid, folder)
pairs. -/
theorem C9_counterexample :
    ((mailC9.inbox.map (fun u => (u, MAILBOX))
        ++ mailC9.sent.map (fun u => (u, SENT_FOLDER))).length = 5 ∧
      (mailC9.inbox.map (fun u => (u, MAILBOX))
        ++ mailC9.sent.map (fun u => (u, SENT_FOLDER))).Nodup) ∧
    (backfill_thread_emails mailC9 fetchC9 colC9 "7" none 900).2 = 2 ∧
    ((backfill_thread_emails mailC9 fetchC9 colC9 "7" none 900).1.map
        (fun d => d.messages.length)).sum = 4 ∧
    (4 : Nat) ≠ 5 := by
  decide

/-- C9 amended: the missing set is computed on uids alone — (uids found in
either folder for the grouping key) minus (uids already stored) minus (the
uid currently being processed) — and for matching messages with pairwise
distinct uids the claimed convergence holds: with 2 of 5 members stored,
one pass leaves all 5 stored and a second pass admits nothing and changes
nothing. -/
theorem C9_amended :
    (∀ (mail : MailSearchResult) (existing : List Nat) (cur : Option Nat)
        (u : Nat),
      u ∈ computeMissing (build_uid_folder_map mail) existing cur
        ↔ ((u ∈ mail.inbox ∨ u ∈ mail.sent) ∧ u ∉ existing ∧
            cur ≠ some u)) ∧
    ((backfill_thread_emails mailC9b fetchC9 colC9 "7" none 900).1.map
        (fun d => d.messages.length)).sum = 5 ∧
    ((backfill_thread_emails mailC9b fetchC9 colC9 "7" none 900).1.map
        (fun d => d.uids)) = [[1, 2, 3, 4, 5]] ∧
    (backfill_thread_emails mailC9b fetchC9
        (backfill_thread_emails mailC9b fetchC9 colC9 "7" none 900).1
        "7" none 901)
      = ((backfill_thread_emails mailC9b fetchC9 colC9 "7" none 900).1, 0) := by
  refine ⟨?_, by decide, by decide, by decide⟩
  intro mail existing cur u
  simp only [computeMissing, List.mem_filter, build_uid_folder_map]
  rw [mem_mapKeys_foldl, mem_mapKeys_foldl]
  simp only [mapKeys, List.map_nil, List.mem_nil_iff, or_false]
  constructor
  · rintro ⟨h1, h2⟩
    simp only [Bool.and_eq_true, Bool.not_eq_true'] at h2
    refine ⟨by tauto, ?_, ?_⟩
    · intro hm
      have := h2.1
      simp [hm] at this
    · intro hc
      have := h2.2
      simp [hc] at this
  · rintro ⟨h1, h2, h3⟩
    refine ⟨by tauto, ?_⟩
    simp only [Bool.and_eq_true, Bool.not_eq_true']
    constructor
    · simpa using h2
    · simpa using h3

/-- C10 confirmed: for every input and every prior file state,
save_thread_data raises NameError on the unbound name `append` inside the
try block, so it returns False and leaves the file unchanged. -/
theorem C10_save_thread_data_always_false
    (fs : Option (List SimpleThread)) (td : ThreadData) :
    saveThreadDataBody fs td = .error (.nameError "append") ∧
    save_thread_data fs td = (false, fs) := by
  constructor
  · rfl
  · rfl
